import Mathlib

/-!
Verification development for the RDC collective variable
(`src/colvar/RDC.cpp`): the direct analytic kernel, its gradient and
virial bookkeeping, the parallel work distribution of `RDC::calculate`,
the SVD fit mode, and the keyword handling of the constructor `RDC::RDC`.

Machine floating point is modelled by `ℝ`; the periodic-boundary
displacement `pbcDistance` is an external collaborator, so each bond's
displacement vector is an input of the model.
-/

namespace RDC

/-- The physical constant `Const` initialised in the member initialiser list
of `RDC::RDC` (line 164 of `RDC.cpp`). -/
noncomputable def Const : ℝ := 0.3356806

/-- The scalar computed for one bond by the direct branch of
`RDC::calculate` (lines 274-283): given `scale[index] = s`,
`mu_s[index] = g` and the displacement components `x y z`,
this is the value stored into `rdc[index]`. -/
noncomputable def rdcVal (s g x y z : ℝ) : ℝ :=
  let d := Real.sqrt (x * x + y * y + z * z)
  let ind := 1 / d
  let id3 := ind * ind * ind
  let mx := -Const * s * g
  let dmax := id3 * mx
  let cos_theta := z * ind
  0.5 * dmax * (3 * cos_theta * cos_theta - 1)

/-- The x component written into `dRDC[r]` (line 288): `prod*distance[0]`
with `prod = -max*id7*(1.5*x2 + 1.5*y2 - 6*z2)`. -/
noncomputable def gradAx (s g x y z : ℝ) : ℝ :=
  let d := Real.sqrt (x * x + y * y + z * z)
  let ind := 1 / d
  let id3 := ind * ind * ind
  let id7 := id3 * id3 * ind
  let mx := -Const * s * g
  let x2 := x * x
  let y2 := y * y
  let z2 := z * z
  let prod := -mx * id7 * (1.5 * x2 + 1.5 * y2 - 6 * z2)
  prod * x

/-- The y component written into `dRDC[r]` (line 289): `prod*distance[1]`. -/
noncomputable def gradAy (s g x y z : ℝ) : ℝ :=
  let d := Real.sqrt (x * x + y * y + z * z)
  let ind := 1 / d
  let id3 := ind * ind * ind
  let id7 := id3 * id3 * ind
  let mx := -Const * s * g
  let x2 := x * x
  let y2 := y * y
  let z2 := z * z
  let prod := -mx * id7 * (1.5 * x2 + 1.5 * y2 - 6 * z2)
  prod * y

/-- The z component written into `dRDC[r]` (line 290):
`-max*id9*distance[2]*(4.5*x2*x2 + 4.5*y2*y2 + 1.5*y2*z2 - 3*z2*z2 + x2*(9*y2 + 1.5*z2))`. -/
noncomputable def gradAz (s g x y z : ℝ) : ℝ :=
  let d := Real.sqrt (x * x + y * y + z * z)
  let ind := 1 / d
  let id3 := ind * ind * ind
  let id7 := id3 * id3 * ind
  let id9 := id7 * ind * ind
  let mx := -Const * s * g
  let x2 := x * x
  let y2 := y * y
  let z2 := z * z
  (-mx * id9 * z * (4.5 * x2 * x2 + 4.5 * y2 * y2 + 1.5 * y2 * z2 - 3 * z2 * z2 +
    x2 * (9 * y2 + 1.5 * z2)))

/-- The vector `dRDC[r]` assigned to the first atom of a bond
(lines 288-290). -/
noncomputable def gradAvec (s g x y z : ℝ) : Fin 3 → ℝ :=
  ![gradAx s g x y z, gradAy s g x y z, gradAz s g x y z]

/-- Modelled from the spec: the closed-form contract of section 4.1,
`rdc = 0.5 * Dmax * (3 cos θ ^ 2 - 1)` with `cos θ = d_z / r` and
`Dmax = -K * scale * gyro / r^3`.  Used to compare the code's published
scalar with the spec's words. -/
noncomputable def rdcSpecFormula (s g x y z : ℝ) : ℝ :=
  let r := Real.sqrt (x ^ 2 + y ^ 2 + z ^ 2)
  let Dmax := -(Const * s * g) / r ^ 3
  let cos_theta := z / r
  0.5 * Dmax * (3 * cos_theta ^ 2 - 1)

/-- The code's per-bond scalar agrees with the spec's closed form whenever
the bond length is positive. -/
theorem rdcVal_eq_spec (s g x y z : ℝ) (h : 0 < x * x + y * y + z * z) :
    rdcVal s g x y z = rdcSpecFormula s g x y z := by
  have hx : (x ^ 2 + y ^ 2 + z ^ 2 : ℝ) = x * x + y * y + z * z := by ring
  simp only [rdcVal, rdcSpecFormula, hx]
  set r := Real.sqrt (x * x + y * y + z * z) with hrdef
  have hr : 0 < r := Real.sqrt_pos.mpr h
  field_simp
  ring

/-- Odd powers of a square root: `√q ^ 3 = q * √q`. -/
theorem sqrt_pow3 (q : ℝ) (h : 0 ≤ q) : Real.sqrt q ^ 3 = q * Real.sqrt q := by
  have h2 : Real.sqrt q ^ 2 = q := Real.sq_sqrt h
  calc Real.sqrt q ^ 3 = Real.sqrt q ^ 2 * Real.sqrt q := by ring
  _ = q * Real.sqrt q := by rw [h2]

/-- Odd powers of a square root: `√q ^ 5 = q^2 * √q`. -/
theorem sqrt_pow5 (q : ℝ) (h : 0 ≤ q) : Real.sqrt q ^ 5 = q ^ 2 * Real.sqrt q := by
  have h2 : Real.sqrt q ^ 2 = q := Real.sq_sqrt h
  calc Real.sqrt q ^ 5 = (Real.sqrt q ^ 2) ^ 2 * Real.sqrt q := by ring
  _ = q ^ 2 * Real.sqrt q := by rw [h2]

/-- Odd powers of a square root: `√q ^ 7 = q^3 * √q`. -/
theorem sqrt_pow7 (q : ℝ) (h : 0 ≤ q) : Real.sqrt q ^ 7 = q ^ 3 * Real.sqrt q := by
  have h2 : Real.sqrt q ^ 2 = q := Real.sq_sqrt h
  calc Real.sqrt q ^ 7 = (Real.sqrt q ^ 2) ^ 3 * Real.sqrt q := by ring
  _ = q ^ 3 * Real.sqrt q := by rw [h2]

/-- Odd powers of a square root: `√q ^ 9 = q^4 * √q`. -/
theorem sqrt_pow9 (q : ℝ) (h : 0 ≤ q) : Real.sqrt q ^ 9 = q ^ 4 * Real.sqrt q := by
  have h2 : Real.sqrt q ^ 2 = q := Real.sq_sqrt h
  calc Real.sqrt q ^ 9 = (Real.sqrt q ^ 2) ^ 4 * Real.sqrt q := by ring
  _ = q ^ 4 * Real.sqrt q := by rw [h2]

/-- Auxiliary analysis helper: the reciprocal denominator `(2 u^2 √u)⁻¹`
through which the closed form of `rdcVal` factors. -/
noncomputable def invDen (u : ℝ) : ℝ := (2 * u ^ 2 * Real.sqrt u)⁻¹

/-- Closed form of the code's per-bond scalar: `rdcVal` factors through
`invDen` of the squared bond length. -/
theorem rdcVal_closed (s g x y z : ℝ) (h : 0 < x * x + y * y + z * z) :
    rdcVal s g x y z =
      -(Const * s * g) *
        ((3 * z ^ 2 - (x * x + y * y + z * z)) * invDen (x * x + y * y + z * z)) := by
  have hr : 0 < Real.sqrt (x * x + y * y + z * z) := Real.sqrt_pos.mpr h
  have h5 := sqrt_pow5 (x * x + y * y + z * z) h.le
  have hrr := Real.mul_self_sqrt h.le
  simp only [rdcVal, invDen]
  set r := Real.sqrt (x * x + y * y + z * z) with hrdef
  rw [eq_comm, inv_eq_one_div]
  field_simp
  rw [(by ring : r * r * r * (r * r) = r ^ 5), h5, hrr]
  ring

/-- Closed form of the x gradient component written by the code. -/
theorem gradAx_closed (s g x y z : ℝ) (h : 0 < x * x + y * y + z * z) :
    gradAx s g x y z =
      Const * s * g * x * (1.5 * (x * x + y * y + z * z) - 7.5 * (z * z)) /
        ((x * x + y * y + z * z) ^ 3 * Real.sqrt (x * x + y * y + z * z)) := by
  have hr : 0 < Real.sqrt (x * x + y * y + z * z) := Real.sqrt_pos.mpr h
  have h7 := sqrt_pow7 (x * x + y * y + z * z) h.le
  simp only [gradAx]
  set r := Real.sqrt (x * x + y * y + z * z) with hrdef
  field_simp
  rw [(by ring : r * r * r * (r * r * r) * r = r ^ 7), h7]
  ring

/-- Closed form of the y gradient component written by the code. -/
theorem gradAy_closed (s g x y z : ℝ) (h : 0 < x * x + y * y + z * z) :
    gradAy s g x y z =
      Const * s * g * y * (1.5 * (x * x + y * y + z * z) - 7.5 * (z * z)) /
        ((x * x + y * y + z * z) ^ 3 * Real.sqrt (x * x + y * y + z * z)) := by
  have hr : 0 < Real.sqrt (x * x + y * y + z * z) := Real.sqrt_pos.mpr h
  have h7 := sqrt_pow7 (x * x + y * y + z * z) h.le
  simp only [gradAy]
  set r := Real.sqrt (x * x + y * y + z * z) with hrdef
  field_simp
  rw [(by ring : r * r * r * (r * r * r) * r = r ^ 7), h7]
  ring

/-- Closed form of the z gradient component written by the code. -/
theorem gradAz_closed (s g x y z : ℝ) (h : 0 < x * x + y * y + z * z) :
    gradAz s g x y z =
      Const * s * g * z * (4.5 * (x * x + y * y + z * z) - 7.5 * (z * z)) /
        ((x * x + y * y + z * z) ^ 3 * Real.sqrt (x * x + y * y + z * z)) := by
  have hr : 0 < Real.sqrt (x * x + y * y + z * z) := Real.sqrt_pos.mpr h
  have h9 := sqrt_pow9 (x * x + y * y + z * z) h.le
  simp only [gradAz]
  set r := Real.sqrt (x * x + y * y + z * z) with hrdef
  field_simp
  rw [(by ring : r * r * r * (r * r * r) * r * r * r = r ^ 9), h9]
  ring

/-- Derivative of `invDen` at a point written as `r * r`, where the square
root evaluates symbolically. -/
theorem hasDerivAt_invDen_param (r : ℝ) (hr : 0 < r) :
    HasDerivAt invDen (-5 / (4 * (r * r) ^ 3 * r)) (r * r) := by
  have hrpos : (0:ℝ) < r * r := by positivity
  have hrr : Real.sqrt (r * r) = r := Real.sqrt_mul_self hr.le
  have h1 : HasDerivAt (fun u : ℝ => 2 * u ^ 2) (2 * (2 * (r * r) ^ 1)) (r * r) :=
    (hasDerivAt_pow 2 (r * r)).const_mul 2
  have h2 : HasDerivAt Real.sqrt (1 / (2 * Real.sqrt (r * r))) (r * r) :=
    Real.hasDerivAt_sqrt hrpos.ne'
  have h3 := h1.mul h2
  have hne : 2 * (r * r) ^ 2 * Real.sqrt (r * r) ≠ 0 := by rw [hrr]; positivity
  have h4 := h3.inv hne
  have h5 : HasDerivAt invDen
      (-(2 * (2 * (r * r) ^ 1) * Real.sqrt (r * r) + 2 * (r * r) ^ 2 * (1 / (2 * Real.sqrt (r * r)))) /
        (2 * (r * r) ^ 2 * Real.sqrt (r * r)) ^ 2) (r * r) := h4
  convert h5 using 1
  rw [hrr]
  field_simp
  ring

/-- Derivative of `invDen` at a positive point. -/
theorem hasDerivAt_invDen (u : ℝ) (hu : 0 < u) :
    HasDerivAt invDen (-5 / (4 * u ^ 3 * Real.sqrt u)) u := by
  have h := hasDerivAt_invDen_param (Real.sqrt u) (Real.sqrt_pos.mpr hu)
  rw [Real.mul_self_sqrt hu.le] at h
  exact h

/-- The squared bond length as a function of the x component, with its
derivative. -/
theorem hasDerivAt_qx (x y z : ℝ) :
    HasDerivAt (fun t : ℝ => t * t + y * y + z * z) (1 * x + x * 1) x :=
  (((hasDerivAt_id x).mul (hasDerivAt_id x)).add_const (y * y)).add_const (z * z)

/-- The squared bond length as a function of the z component, with its
derivative. -/
theorem hasDerivAt_qz (x y z : ℝ) :
    HasDerivAt (fun t : ℝ => x * x + y * y + t * t) (1 * z + z * 1) z := by
  have h := ((hasDerivAt_id z).mul (hasDerivAt_id z)).const_add (x * x + y * y)
  have he : (fun t : ℝ => x * x + y * y + t * t) = fun t : ℝ => x * x + y * y + (t * t) := rfl
  rw [show (fun t : ℝ => x * x + y * y + t * t) = fun t : ℝ => (x * x + y * y) + t * t from by
    funext t; ring]
  exact h

/-- The exact analytic derivative of the code's per-bond scalar with respect
to the x component of the displacement is the negation of the x gradient
component the code assigns to the first atom. -/
theorem hasDerivAt_rdcVal_x (s g x y z : ℝ) (h : 0 < x * x + y * y + z * z) :
    HasDerivAt (fun t => rdcVal s g t y z) (-gradAx s g x y z) x := by
  have hq := hasDerivAt_qx x y z
  have hG := (hasDerivAt_invDen (x * x + y * y + z * z) h).comp x hq
  have hN : HasDerivAt (fun t : ℝ => 3 * z ^ 2 - (t * t + y * y + z * z))
      (0 - (1 * x + x * 1)) x := (hasDerivAt_const x (3 * z ^ 2)).sub hq
  have hfc := (hN.mul hG).const_mul (-(Const * s * g))
  simp only [Function.comp] at hfc
  have hopen : IsOpen {t : ℝ | 0 < t * t + y * y + z * z} :=
    isOpen_lt continuous_const (by continuity)
  have hev : (fun t => rdcVal s g t y z) =ᶠ[nhds x]
      fun t => -(Const * s * g) *
        ((3 * z ^ 2 - (t * t + y * y + z * z)) * invDen (t * t + y * y + z * z)) :=
    Filter.eventuallyEq_of_mem (hopen.mem_nhds h) fun t ht => rdcVal_closed s g t y z ht
  have hmain := hfc.congr_of_eventuallyEq hev
  convert hmain using 1
  rw [gradAx_closed s g x y z h]
  have hr : 0 < Real.sqrt (x * x + y * y + z * z) := Real.sqrt_pos.mpr h
  simp only [invDen]
  field_simp
  ring

/-- The exact analytic derivative with respect to the y component, obtained
from the x case by the x-y symmetry of the formulas. -/
theorem hasDerivAt_rdcVal_y (s g x y z : ℝ) (h : 0 < x * x + y * y + z * z) :
    HasDerivAt (fun t => rdcVal s g x t z) (-gradAy s g x y z) y := by
  have hsym : ∀ a b : ℝ, rdcVal s g a b z = rdcVal s g b a z := by
    intro a b
    simp only [rdcVal]
    rw [show b * b + a * a + z * z = a * a + b * b + z * z from by ring]
  have h' : 0 < y * y + x * x + z * z := by linarith
  have hx := hasDerivAt_rdcVal_x s g y x z h'
  have he : (fun t => rdcVal s g x t z) = fun t => rdcVal s g t x z := by
    funext t; exact hsym x t
  rw [he]
  convert hx using 1
  have hr : 0 < Real.sqrt (x * x + y * y + z * z) := Real.sqrt_pos.mpr h
  rw [gradAy_closed s g x y z h, gradAx_closed s g y x z h',
    show y * y + x * x + z * z = x * x + y * y + z * z from by ring]

/-- The exact analytic derivative of the code's per-bond scalar with respect
to the z component of the displacement is the negation of the z gradient
component the code assigns to the first atom. -/
theorem hasDerivAt_rdcVal_z (s g x y z : ℝ) (h : 0 < x * x + y * y + z * z) :
    HasDerivAt (fun t => rdcVal s g x y t) (-gradAz s g x y z) z := by
  have hq := hasDerivAt_qz x y z
  have houter : HasDerivAt invDen
      (-5 / (4 * (x * x + y * y + z * z) ^ 3 * Real.sqrt (x * x + y * y + z * z)))
      ((fun t : ℝ => x * x + y * y + t * t) z) := hasDerivAt_invDen (x * x + y * y + z * z) h
  have hG := houter.comp z hq
  have hN : HasDerivAt (fun t : ℝ => 3 * t ^ 2 - (x * x + y * y + t * t))
      (3 * (2 * z ^ 1) - (1 * z + z * 1)) z :=
    ((hasDerivAt_pow 2 z).const_mul 3).sub (hasDerivAt_qz x y z)
  have hfc := (hN.mul hG).const_mul (-(Const * s * g))
  simp only [Function.comp] at hfc
  have hopen : IsOpen {t : ℝ | 0 < x * x + y * y + t * t} :=
    isOpen_lt continuous_const (by continuity)
  have hev : (fun t => rdcVal s g x y t) =ᶠ[nhds z]
      fun t => -(Const * s * g) *
        ((3 * t ^ 2 - (x * x + y * y + t * t)) * invDen (x * x + y * y + t * t)) :=
    Filter.eventuallyEq_of_mem (hopen.mem_nhds h) fun t ht => rdcVal_closed s g x y t ht
  have hmain := hfc.congr_of_eventuallyEq hev
  convert hmain using 1
  rw [gradAz_closed s g x y z h]
  have hr : 0 < Real.sqrt (x * x + y * y + z * z) := Real.sqrt_pos.mpr h
  simp only [invDen]
  field_simp
  ring

/-- Modelled from the spec: the gradient expression claimed for the x
component, `prod * x` with `prod = K*scale*gyro/r^7 * (1.5x^2+1.5y^2-6z^2)`. -/
noncomputable def claimedGradX (s g x y z : ℝ) : ℝ :=
  Const * s * g / Real.sqrt (x * x + y * y + z * z) ^ 7 *
    (1.5 * x ^ 2 + 1.5 * y ^ 2 - 6 * z ^ 2) * x

/-- Modelled from the spec: the gradient expression claimed for the y
component, `prod * y`. -/
noncomputable def claimedGradY (s g x y z : ℝ) : ℝ :=
  Const * s * g / Real.sqrt (x * x + y * y + z * z) ^ 7 *
    (1.5 * x ^ 2 + 1.5 * y ^ 2 - 6 * z ^ 2) * y

/-- Modelled from the spec: the gradient expression claimed for the z
component, `K*scale*gyro/r^9 * z * (4.5x^4+4.5y^4+1.5y^2z^2-3z^4+x^2(9y^2+1.5z^2))`. -/
noncomputable def claimedGradZ (s g x y z : ℝ) : ℝ :=
  Const * s * g / Real.sqrt (x * x + y * y + z * z) ^ 9 * z *
    (4.5 * x ^ 4 + 4.5 * y ^ 4 + 1.5 * y ^ 2 * z ^ 2 - 3 * z ^ 4 +
      x ^ 2 * (9 * y ^ 2 + 1.5 * z ^ 2))

/-- The code's x gradient component coincides with the claim's expression. -/
theorem gradAx_eq_claimed (s g x y z : ℝ) (h : 0 < x * x + y * y + z * z) :
    gradAx s g x y z = claimedGradX s g x y z := by
  have hr : 0 < Real.sqrt (x * x + y * y + z * z) := Real.sqrt_pos.mpr h
  rw [gradAx_closed s g x y z h, claimedGradX, sqrt_pow7 _ h.le]
  field_simp
  ring

/-- The code's y gradient component coincides with the claim's expression. -/
theorem gradAy_eq_claimed (s g x y z : ℝ) (h : 0 < x * x + y * y + z * z) :
    gradAy s g x y z = claimedGradY s g x y z := by
  have hr : 0 < Real.sqrt (x * x + y * y + z * z) := Real.sqrt_pos.mpr h
  rw [gradAy_closed s g x y z h, claimedGradY, sqrt_pow7 _ h.le]
  field_simp
  ring

/-- The code's z gradient component coincides with the claim's expression. -/
theorem gradAz_eq_claimed (s g x y z : ℝ) (h : 0 < x * x + y * y + z * z) :
    gradAz s g x y z = claimedGradZ s g x y z := by
  have hr : 0 < Real.sqrt (x * x + y * y + z * z) := Real.sqrt_pos.mpr h
  rw [gradAz_closed s g x y z h, claimedGradZ, sqrt_pow9 _ h.le]
  field_simp
  ring

/-- Evaluation of the per-bond scalar at the unit displacement along z. -/
theorem rdcVal_unit_z : rdcVal 1 1 0 0 1 = -Const := by
  simp only [rdcVal]
  norm_num [Real.sqrt_one]
  ring

/-- Evaluation of the z gradient component at the unit displacement along z. -/
theorem gradAz_unit_z : gradAz 1 1 0 0 1 = -(3 * Const) := by
  simp only [gradAz]
  norm_num [Real.sqrt_one]
  ring

/-- Evaluation of the claimed z gradient at the unit displacement along z. -/
theorem claimedGradZ_unit_z : claimedGradZ 1 1 0 0 1 = -(3 * Const) := by
  simp only [claimedGradZ]
  norm_num [Real.sqrt_one]
  ring

/-- The constant `Const` is positive. -/
theorem const_pos : 0 < Const := by norm_num [Const]

/-- Outer product `Tensor(a,b)` of two 3-vectors, the PLMD `Tensor`
constructor used in `dervir[index] += Tensor(distance,dRDC[r])` (line 292). -/
def tensorOf (a b : Fin 3 → ℝ) : Fin 3 → Fin 3 → ℝ := fun i j => a i * b j

/-- The per-call buffers of `RDC::calculate` (lines 254-257): the `rdc`
vector, the per-atom derivative array `dRDC` and the per-bond virial array
`dervir`, all zero initialised. -/
structure LocalBuf where
  rdc : ℕ → ℝ
  dRDC : ℕ → Fin 3 → ℝ
  dervir : ℕ → Fin 3 → Fin 3 → ℝ

/-- One iteration of the direct-mode loop (lines 270-293) for the atom pair
`(r, r+1) = (2*i, 2*i+1)` of bond `i = r/2`: writes `rdc[index]`,
`dRDC[r]`, `dRDC[r+1] = -dRDC[r]` and accumulates
`dervir[index] += Tensor(distance, dRDC[r])`. -/
noncomputable def bondStep (scale mu : ℕ → ℝ) (dist : ℕ → Fin 3 → ℝ)
    (buf : LocalBuf) (i : ℕ) : LocalBuf :=
  let x := dist i 0
  let y := dist i 1
  let z := dist i 2
  let gA := gradAvec (scale i) (mu i) x y z
  { rdc := Function.update buf.rdc i (rdcVal (scale i) (mu i) x y z)
    dRDC := Function.update (Function.update buf.dRDC (2 * i) gA) (2 * i + 1) (-gA)
    dervir := Function.update buf.dervir i (buf.dervir i + tensorOf (dist i) gA) }

/-- The bond indices visited by the worker of rank `w` among `W` workers:
the loop `for(r=rank; r<N; r+=stride)` with `rank = 2*w`, `stride = 2*W` and
`N = 2*nd` visits exactly the even atom indices `r = 2*i` with `w ≤ i`,
`(i - w) % W = 0` and `i < nd`. -/
def ownedBonds (nd W w : ℕ) : List ℕ :=
  (List.range nd).filter fun i => decide (w ≤ i ∧ (i - w) % W = 0)

/-- The local buffers of worker `w` after its direct-mode loop. -/
noncomputable def localCompute (nd : ℕ) (scale mu : ℕ → ℝ) (dist : ℕ → Fin 3 → ℝ)
    (W w : ℕ) : LocalBuf :=
  (ownedBonds nd W w).foldl (bondStep scale mu dist)
    ⟨fun _ => 0, fun _ _ => 0, fun _ _ _ => 0⟩

/-- What one worker publishes at the end of direct-mode `RDC::calculate`
(lines 294-306): the component value of bond `i` is `rdc[index]` from the
worker's own local vector, while the atom derivatives and box derivatives
come from the `dRDC` and `dervir` buffers sum-reduced over all `W` workers
by `comm.Sum` (lines 295-296). -/
structure DirectResult where
  val : ℕ → ℝ
  atomDeriv : ℕ → Fin 3 → ℝ
  boxDeriv : ℕ → Fin 3 → Fin 3 → ℝ

/-- Direct-mode `RDC::calculate` as seen by the worker of rank `w` among
`W` workers.  The serial path (`serial` flag or a single-member
communicator) is the case `W = 1`, `w = 0`. -/
noncomputable def calculateDirect (W nd : ℕ) (scale mu : ℕ → ℝ)
    (dist : ℕ → Fin 3 → ℝ) (w : ℕ) : DirectResult :=
  { val := fun i => (localCompute nd scale mu dist W w).rdc i
    atomDeriv := fun a => ∑ v ∈ Finset.range W, (localCompute nd scale mu dist W v).dRDC a
    boxDeriv := fun i => ∑ v ∈ Finset.range W, (localCompute nd scale mu dist W v).dervir i }

theorem mem_ownedBonds (nd W w i : ℕ) :
    i ∈ ownedBonds nd W w ↔ i < nd ∧ w ≤ i ∧ (i - w) % W = 0 := by
  simp [ownedBonds, List.mem_filter, List.mem_range, and_assoc]

/-- For a rank `w < W`, the owned bonds are exactly those congruent to `w`
modulo the number of workers. -/
theorem mem_ownedBonds_mod (nd W w i : ℕ) (hW : 0 < W) (hw : w < W) :
    i ∈ ownedBonds nd W w ↔ i < nd ∧ i % W = w := by
  rw [mem_ownedBonds]
  constructor
  · rintro ⟨h1, h2, h3⟩
    obtain ⟨k, hk⟩ := Nat.dvd_of_mod_eq_zero h3
    have hiw : i = w + W * k := by omega
    have hmod : i % W = w := by rw [hiw, Nat.add_mul_mod_self_left, Nat.mod_eq_of_lt hw]
    exact ⟨h1, hmod⟩
  · rintro ⟨h1, h2⟩
    have hle : w ≤ i := h2 ▸ Nat.mod_le i W
    have hdm := Nat.div_add_mod i W
    have hsub : i - w = W * (i / W) := by omega
    rw [hsub]
    exact ⟨h1, hle, Nat.mul_mod_right W _⟩

theorem ownedBonds_nodup (nd W w : ℕ) : (ownedBonds nd W w).Nodup :=
  (List.nodup_range nd).filter _

theorem foldl_rdc (scale mu : ℕ → ℝ) (dist : ℕ → Fin 3 → ℝ) (l : List ℕ) :
    ∀ init : LocalBuf, ∀ i : ℕ,
      ((l.foldl (bondStep scale mu dist) init).rdc) i =
        if i ∈ l then rdcVal (scale i) (mu i) (dist i 0) (dist i 1) (dist i 2)
        else init.rdc i := by
  induction l with
  | nil => intro init i; simp
  | cons j l ih =>
    intro init i
    rw [List.foldl_cons, ih]
    by_cases hil : i ∈ l
    · simp [hil]
    · by_cases hij : i = j
      · subst hij
        simp [hil, bondStep, Function.update_apply]
      · simp [hil, hij, bondStep, Function.update_apply]

theorem foldl_dRDC_even (scale mu : ℕ → ℝ) (dist : ℕ → Fin 3 → ℝ) (l : List ℕ) :
    ∀ init : LocalBuf, ∀ i : ℕ,
      ((l.foldl (bondStep scale mu dist) init).dRDC) (2 * i) =
        if i ∈ l then gradAvec (scale i) (mu i) (dist i 0) (dist i 1) (dist i 2)
        else init.dRDC (2 * i) := by
  induction l with
  | nil => intro init i; simp
  | cons j l ih =>
    intro init i
    rw [List.foldl_cons, ih]
    by_cases hil : i ∈ l
    · simp [hil]
    · by_cases hij : i = j
      · subst hij
        have h1 : 2 * i ≠ 2 * i + 1 := by omega
        simp [hil, bondStep, Function.update_apply, h1]
      · have h1 : 2 * i ≠ 2 * j + 1 := by omega
        have h2 : 2 * i ≠ 2 * j := by omega
        simp [hil, hij, bondStep, Function.update_apply, h1, h2]

theorem foldl_dRDC_odd (scale mu : ℕ → ℝ) (dist : ℕ → Fin 3 → ℝ) (l : List ℕ) :
    ∀ init : LocalBuf, ∀ i : ℕ,
      ((l.foldl (bondStep scale mu dist) init).dRDC) (2 * i + 1) =
        if i ∈ l then -gradAvec (scale i) (mu i) (dist i 0) (dist i 1) (dist i 2)
        else init.dRDC (2 * i + 1) := by
  induction l with
  | nil => intro init i; simp
  | cons j l ih =>
    intro init i
    rw [List.foldl_cons, ih]
    by_cases hil : i ∈ l
    · simp [hil]
    · by_cases hij : i = j
      · subst hij
        simp [hil, bondStep, Function.update_apply]
      · have h1 : 2 * i + 1 ≠ 2 * j + 1 := by omega
        have h2 : 2 * i + 1 ≠ 2 * j := by omega
        simp [hil, hij, bondStep, Function.update_apply, h1, h2]

theorem foldl_dervir (scale mu : ℕ → ℝ) (dist : ℕ → Fin 3 → ℝ) (l : List ℕ) :
    ∀ init : LocalBuf, l.Nodup → ∀ i : ℕ,
      ((l.foldl (bondStep scale mu dist) init).dervir) i =
        init.dervir i +
          (if i ∈ l then
            tensorOf (dist i) (gradAvec (scale i) (mu i) (dist i 0) (dist i 1) (dist i 2))
          else 0) := by
  induction l with
  | nil => intro init _ i; simp
  | cons j l ih =>
    intro init hl i
    have hjl : j ∉ l := (List.nodup_cons.mp hl).1
    have hl' : l.Nodup := (List.nodup_cons.mp hl).2
    rw [List.foldl_cons, ih _ hl']
    by_cases hij : i = j
    · subst hij
      simp [hjl, bondStep, Function.update_apply]
    · by_cases hil : i ∈ l
      · simp [hil, hij, bondStep, Function.update_apply]
      · simp [hil, hij, bondStep, Function.update_apply]

theorem localCompute_rdc (nd : ℕ) (scale mu : ℕ → ℝ) (dist : ℕ → Fin 3 → ℝ)
    (W w i : ℕ) :
    (localCompute nd scale mu dist W w).rdc i =
      if i ∈ ownedBonds nd W w then
        rdcVal (scale i) (mu i) (dist i 0) (dist i 1) (dist i 2)
      else 0 :=
  foldl_rdc scale mu dist (ownedBonds nd W w) _ i

theorem localCompute_dRDC_even (nd : ℕ) (scale mu : ℕ → ℝ) (dist : ℕ → Fin 3 → ℝ)
    (W w i : ℕ) :
    (localCompute nd scale mu dist W w).dRDC (2 * i) =
      if i ∈ ownedBonds nd W w then
        gradAvec (scale i) (mu i) (dist i 0) (dist i 1) (dist i 2)
      else 0 :=
  foldl_dRDC_even scale mu dist (ownedBonds nd W w) _ i

theorem localCompute_dRDC_odd (nd : ℕ) (scale mu : ℕ → ℝ) (dist : ℕ → Fin 3 → ℝ)
    (W w i : ℕ) :
    (localCompute nd scale mu dist W w).dRDC (2 * i + 1) =
      if i ∈ ownedBonds nd W w then
        -gradAvec (scale i) (mu i) (dist i 0) (dist i 1) (dist i 2)
      else 0 :=
  foldl_dRDC_odd scale mu dist (ownedBonds nd W w) _ i

theorem localCompute_dervir (nd : ℕ) (scale mu : ℕ → ℝ) (dist : ℕ → Fin 3 → ℝ)
    (W w i : ℕ) :
    (localCompute nd scale mu dist W w).dervir i =
      if i ∈ ownedBonds nd W w then
        tensorOf (dist i) (gradAvec (scale i) (mu i) (dist i 0) (dist i 1) (dist i 2))
      else 0 := by
  have h := foldl_dervir scale mu dist (ownedBonds nd W w)
    ⟨fun _ => 0, fun _ _ => 0, fun _ _ _ => 0⟩ (ownedBonds_nodup nd W w) i
  rw [show ((⟨fun _ => 0, fun _ _ => 0, fun _ _ _ => 0⟩ : LocalBuf).dervir i) = 0 from rfl,
    zero_add] at h
  exact h

/-- The published component value: the owning worker publishes the bond's
scalar, every other worker publishes the zero its local `rdc` vector was
initialised with (the scalar buffer is never reduced). -/
theorem calculateDirect_val (W nd : ℕ) (scale mu : ℕ → ℝ) (dist : ℕ → Fin 3 → ℝ)
    (w i : ℕ) :
    (calculateDirect W nd scale mu dist w).val i =
      if i ∈ ownedBonds nd W w then
        rdcVal (scale i) (mu i) (dist i 0) (dist i 1) (dist i 2)
      else 0 :=
  localCompute_rdc nd scale mu dist W w i

theorem sum_single_owner {M : Type} [AddCommMonoid M] (W nd i : ℕ) (hW : 0 < W)
    (hi : i < nd) (F : ℕ → M) (G : ℕ → M)
    (hF : ∀ v, v < W → F v = if i ∈ ownedBonds nd W v then G v else 0)
    (hG : ∀ v, G v = G (i % W)) :
    ∑ v ∈ Finset.range W, F v = G (i % W) := by
  have hcong : ∀ v ∈ Finset.range W, F v = if i % W = v then G (i % W) else 0 := by
    intro v hv
    have hvW : v < W := Finset.mem_range.mp hv
    rw [hF v hvW]
    by_cases hmod : i % W = v
    · simp [(mem_ownedBonds_mod nd W v i hW hvW).mpr ⟨hi, hmod⟩, hmod, hG v]
    · have : i ∉ ownedBonds nd W v := by
        rw [mem_ownedBonds_mod nd W v i hW hvW]
        tauto
      simp [this, hmod]
  rw [Finset.sum_congr rfl hcong, Finset.sum_ite_eq]
  simp [Nat.mod_lt i hW]

/-- The reduced per-atom derivative of the first atom of bond `i` is the
single owning worker's `dRDC[2i]`. -/
theorem calculateDirect_atomDeriv_even (W nd : ℕ) (scale mu : ℕ → ℝ)
    (dist : ℕ → Fin 3 → ℝ) (w i : ℕ) (hW : 0 < W) (hi : i < nd) :
    (calculateDirect W nd scale mu dist w).atomDeriv (2 * i) =
      gradAvec (scale i) (mu i) (dist i 0) (dist i 1) (dist i 2) := by
  show (∑ v ∈ Finset.range W, (localCompute nd scale mu dist W v).dRDC (2 * i)) = _
  exact sum_single_owner W nd i hW hi _ _
    (fun v _ => localCompute_dRDC_even nd scale mu dist W v i) (fun v => rfl)

/-- The reduced per-atom derivative of the second atom of bond `i` is the
single owning worker's `dRDC[2i+1] = -dRDC[2i]`. -/
theorem calculateDirect_atomDeriv_odd (W nd : ℕ) (scale mu : ℕ → ℝ)
    (dist : ℕ → Fin 3 → ℝ) (w i : ℕ) (hW : 0 < W) (hi : i < nd) :
    (calculateDirect W nd scale mu dist w).atomDeriv (2 * i + 1) =
      -gradAvec (scale i) (mu i) (dist i 0) (dist i 1) (dist i 2) := by
  show (∑ v ∈ Finset.range W, (localCompute nd scale mu dist W v).dRDC (2 * i + 1)) = _
  exact sum_single_owner W nd i hW hi _ _
    (fun v _ => localCompute_dRDC_odd nd scale mu dist W v i) (fun v => rfl)

/-- The reduced virial contribution of bond `i` is the single owning
worker's `Tensor(distance, dRDC[2i])`. -/
theorem calculateDirect_boxDeriv (W nd : ℕ) (scale mu : ℕ → ℝ)
    (dist : ℕ → Fin 3 → ℝ) (w i : ℕ) (hW : 0 < W) (hi : i < nd) :
    (calculateDirect W nd scale mu dist w).boxDeriv i =
      tensorOf (dist i) (gradAvec (scale i) (mu i) (dist i 0) (dist i 1) (dist i 2)) := by
  show (∑ v ∈ Finset.range W, (localCompute nd scale mu dist W v).dervir i) = _
  exact sum_single_owner W nd i hW hi _ _
    (fun v _ => localCompute_dervir nd scale mu dist W v i) (fun v => rfl)

theorem vec3_apply0 (a b c : ℝ) : (![a, b, c] : Fin 3 → ℝ) 0 = a := rfl

theorem vec3_apply1 (a b c : ℝ) : (![a, b, c] : Fin 3 → ℝ) 1 = b := rfl

theorem vec3_apply2 (a b c : ℝ) : (![a, b, c] : Fin 3 → ℝ) 2 = c := rfl

open Classical in
/-- Division-guarded variant of the per-bond kernel: `none` exactly when the
division `ind = 1./d` (line 276) is performed with `d = 0`, i.e. when the
bond has zero length.  The source contains no such guard; this definition
only expresses the reachability of that division by zero. -/
noncomputable def rdcValChecked (s g x y z : ℝ) : Option ℝ :=
  if Real.sqrt (x * x + y * y + z * z) = 0 then none
  else some (rdcVal s g x y z)

/-- C1: in direct mode (serial / one-worker evaluation), for every bond `i`
whose minimum-image displacement has positive length, the published scalar
equals `rdc[i] = 0.5 * Dmax * (3 cos θ^2 - 1)` with `cos θ = d_z / r` and
`Dmax = -K * scale[i] * gyro[i] / r^3`, `K = 0.3356806`. -/
theorem C1_direct_value (nd : ℕ) (scale mu : ℕ → ℝ) (dist : ℕ → Fin 3 → ℝ) (i : ℕ)
    (hi : i < nd)
    (hq : 0 < dist i 0 * dist i 0 + dist i 1 * dist i 1 + dist i 2 * dist i 2) :
    (calculateDirect 1 nd scale mu dist 0).val i =
      rdcSpecFormula (scale i) (mu i) (dist i 0) (dist i 1) (dist i 2) := by
  rw [calculateDirect_val]
  have hmem : i ∈ ownedBonds nd 1 0 :=
    (mem_ownedBonds_mod nd 1 0 i Nat.one_pos Nat.one_pos).mpr ⟨hi, Nat.mod_one i⟩
  rw [if_pos hmem]
  exact rdcVal_eq_spec _ _ _ _ _ hq

/-- Witness for C1 at one bond with unit displacement along z. -/
theorem C1_witness :
    ((0 : ℕ) < 1 ∧
      (0:ℝ) < ![0,0,1] 0 * ![0,0,1] 0 + ![0,0,1] 1 * ![0,0,1] 1 + ![0,0,1] 2 * ![0,0,1] 2) ∧
    (calculateDirect 1 1 (fun _ => 1) (fun _ => 1) (fun _ => ![0,0,1]) 0).val 0 =
      rdcSpecFormula 1 1 (![0,0,1] 0) (![0,0,1] 1) (![0,0,1] 2) :=
  ⟨⟨Nat.one_pos, by norm_num⟩,
    C1_direct_value 1 (fun _ => 1) (fun _ => 1) (fun _ => ![0,0,1]) 0 Nat.one_pos (by norm_num)⟩

/-- C2 (amended): the gradient components the code stores for a bond are
exactly the claimed expressions `prod*x`, `prod*y` and the degree-9 z
expression, and they are the exact analytic derivative of `rdc[i]` with
respect to the position of atom A — equivalently, the NEGATION of the
derivative with respect to the components of `d = pos(B) - pos(A)` (the
claim's sign is reversed). -/
theorem C2_gradient_exact (s g x y z : ℝ) (h : 0 < x * x + y * y + z * z) :
    (gradAx s g x y z = claimedGradX s g x y z ∧
      gradAy s g x y z = claimedGradY s g x y z ∧
      gradAz s g x y z = claimedGradZ s g x y z) ∧
    HasDerivAt (fun t => rdcVal s g t y z) (-gradAx s g x y z) x ∧
    HasDerivAt (fun t => rdcVal s g x t z) (-gradAy s g x y z) y ∧
    HasDerivAt (fun t => rdcVal s g x y t) (-gradAz s g x y z) z :=
  ⟨⟨gradAx_eq_claimed s g x y z h, gradAy_eq_claimed s g x y z h,
      gradAz_eq_claimed s g x y z h⟩,
    hasDerivAt_rdcVal_x s g x y z h, hasDerivAt_rdcVal_y s g x y z h,
    hasDerivAt_rdcVal_z s g x y z h⟩

/-- C2 counterexample: at the unit displacement along z the claimed z
expression is NOT the derivative of `rdc` with respect to `d_z` — the true
derivative is its negation. -/
theorem C2_counterexample :
    ¬ HasDerivAt (fun t => rdcVal 1 1 0 0 t) (claimedGradZ 1 1 0 0 1) 1 := by
  intro hcl
  have h0 : (0:ℝ) < 0 * 0 + 0 * 0 + 1 * 1 := by norm_num
  have hz := hasDerivAt_rdcVal_z 1 1 0 0 1 h0
  have huniq := hz.unique hcl
  rw [gradAz_unit_z, claimedGradZ_unit_z] at huniq
  have hc := const_pos
  linarith

/-- Witness for C2 at the unit displacement along z. -/
theorem C2_witness :
    ((0:ℝ) < 0 * 0 + 0 * 0 + 1 * 1) ∧
    ((gradAx 1 1 0 0 1 = claimedGradX 1 1 0 0 1 ∧
        gradAy 1 1 0 0 1 = claimedGradY 1 1 0 0 1 ∧
        gradAz 1 1 0 0 1 = claimedGradZ 1 1 0 0 1) ∧
      HasDerivAt (fun t => rdcVal 1 1 t 0 1) (-gradAx 1 1 0 0 1) 0 ∧
      HasDerivAt (fun t => rdcVal 1 1 0 t 1) (-gradAy 1 1 0 0 1) 0 ∧
      HasDerivAt (fun t => rdcVal 1 1 0 0 t) (-gradAz 1 1 0 0 1) 1) :=
  ⟨by norm_num, C2_gradient_exact 1 1 0 0 1 (by norm_num)⟩

/-- C3 (code bug): with two bonds and two workers, worker 0 publishes `0`
for bond 1 — owned by worker 1 — because the `rdc` vector is never reduced
or gathered across workers (only `dRDC` and `dervir` are summed, lines
295-296), while the one-worker evaluation publishes the true nonzero value
`-K` for the same configuration. -/
theorem C3_scalar_not_reduced :
    (calculateDirect 2 2 (fun _ => 1) (fun _ => 1) (fun _ => ![0,0,1]) 0).val 1 = 0 ∧
    (calculateDirect 1 2 (fun _ => 1) (fun _ => 1) (fun _ => ![0,0,1]) 0).val 1 = -Const ∧
    (0:ℝ) ≠ -Const := by
  refine ⟨?_, ?_, ?_⟩
  · rw [calculateDirect_val]
    have hnot : (1:ℕ) ∉ ownedBonds 2 2 0 := by
      rw [mem_ownedBonds_mod 2 2 0 1 (by norm_num) (by norm_num)]
      norm_num
    rw [if_neg hnot]
  · rw [calculateDirect_val]
    have hmem : (1:ℕ) ∈ ownedBonds 2 1 0 := by
      rw [mem_ownedBonds_mod 2 1 0 1 (by norm_num) (by norm_num)]
      norm_num
    rw [if_pos hmem]
    simpa [vec3_apply0, vec3_apply1, vec3_apply2] using rdcVal_unit_z
  · have hc := const_pos
    intro hcontra
    linarith

/-- C6 (amended): under the precondition of positive bond length the
division-by-zero branch of the direct kernel is unreachable: the checked
kernel succeeds and agrees with the code's value. -/
theorem C6_no_zero_guard (s g x y z : ℝ) (h : 0 < x * x + y * y + z * z) :
    rdcValChecked s g x y z = some (rdcVal s g x y z) := by
  simp only [rdcValChecked]
  rw [if_neg (Real.sqrt_pos.mpr h).ne']

/-- C6 counterexample: for a zero-length bond the evaluation does NOT fail
with a fatal error: the division `1./d` is reached with `d = 0` (checked
kernel detects it) and the code still publishes a value for the bond — no
error path exists in `RDC::calculate`. -/
theorem C6_counterexample :
    rdcValChecked 1 1 0 0 0 = none ∧
    (calculateDirect 1 1 (fun _ => 1) (fun _ => 1) (fun _ => ![0,0,0]) 0).val 0 =
      rdcVal 1 1 0 0 0 := by
  constructor
  · simp only [rdcValChecked]
    rw [if_pos]
    norm_num
  · rw [calculateDirect_val]
    have hmem : (0:ℕ) ∈ ownedBonds 1 1 0 :=
      (mem_ownedBonds_mod 1 1 0 0 Nat.one_pos Nat.one_pos).mpr ⟨Nat.one_pos, rfl⟩
    rw [if_pos hmem]
    simp [vec3_apply0, vec3_apply1, vec3_apply2]

/-- Witness for C6 at the unit displacement along z. -/
theorem C6_witness :
    ((0:ℝ) < 0 * 0 + 0 * 0 + 1 * 1) ∧
    rdcValChecked 1 1 0 0 1 = some (rdcVal 1 1 0 0 1) :=
  ⟨by norm_num, C6_no_zero_guard 1 1 0 0 1 (by norm_num)⟩

/-- C8 (amended): the virial contribution accumulated for bond `i` is the
outer product of the displacement with the gradient assigned to atom A —
the FIRST atom of the bond (`Tensor(distance, dRDC[r])`, line 292) — and
hence the negation of the outer product with atom B's gradient. -/
theorem C8_virial_outer (W nd : ℕ) (scale mu : ℕ → ℝ) (dist : ℕ → Fin 3 → ℝ)
    (w i : ℕ) (hW : 0 < W) (hi : i < nd) :
    (calculateDirect W nd scale mu dist w).boxDeriv i =
      tensorOf (dist i) ((calculateDirect W nd scale mu dist w).atomDeriv (2 * i)) ∧
    (calculateDirect W nd scale mu dist w).boxDeriv i =
      -tensorOf (dist i) ((calculateDirect W nd scale mu dist w).atomDeriv (2 * i + 1)) := by
  rw [calculateDirect_boxDeriv W nd scale mu dist w i hW hi,
    calculateDirect_atomDeriv_even W nd scale mu dist w i hW hi,
    calculateDirect_atomDeriv_odd W nd scale mu dist w i hW hi]
  constructor
  · rfl
  · funext j k
    simp [tensorOf]

/-- C8 counterexample: at one bond with unit displacement along z, the
accumulated virial is NOT the outer product of `d` with the gradient
assigned to atom B (the second atom): the (z,z) entries differ in sign. -/
theorem C8_counterexample :
    ¬ ((calculateDirect 1 1 (fun _ => 1) (fun _ => 1) (fun _ => ![0,0,1]) 0).boxDeriv 0 =
      tensorOf (![0,0,1])
        ((calculateDirect 1 1 (fun _ => 1) (fun _ => 1) (fun _ => ![0,0,1]) 0).atomDeriv
          (2 * 0 + 1))) := by
  intro hcontra
  have h22 := congrFun (congrFun hcontra 2) 2
  rw [calculateDirect_boxDeriv 1 1 _ _ _ 0 0 Nat.one_pos Nat.one_pos,
    calculateDirect_atomDeriv_odd 1 1 _ _ _ 0 0 Nat.one_pos Nat.one_pos] at h22
  simp only [tensorOf, gradAvec, Pi.neg_apply, vec3_apply0, vec3_apply1, vec3_apply2] at h22
  rw [gradAz_unit_z] at h22
  have hc := const_pos
  norm_num at h22
  linarith

/-- Witness for C8 at one bond with unit displacement along z. -/
theorem C8_witness :
    ((0:ℕ) < 1 ∧ (0:ℕ) < 1) ∧
    ((calculateDirect 1 1 (fun _ => 1) (fun _ => 1) (fun _ => ![0,0,1]) 0).boxDeriv 0 =
      tensorOf (![0,0,1])
        ((calculateDirect 1 1 (fun _ => 1) (fun _ => 1) (fun _ => ![0,0,1]) 0).atomDeriv
          (2 * 0)) ∧
     (calculateDirect 1 1 (fun _ => 1) (fun _ => 1) (fun _ => ![0,0,1]) 0).boxDeriv 0 =
      -tensorOf (![0,0,1])
        ((calculateDirect 1 1 (fun _ => 1) (fun _ => 1) (fun _ => ![0,0,1]) 0).atomDeriv
          (2 * 0 + 1))) :=
  ⟨⟨Nat.one_pos, Nat.one_pos⟩,
    C8_virial_outer 1 1 (fun _ => 1) (fun _ => 1) (fun _ => ![0,0,1]) 0 0
      Nat.one_pos Nat.one_pos⟩

/-- C9: swapping the two atoms of a bond negates the displacement but
leaves the published scalar unchanged, and the gradient assigned to atom A
is the negation of the gradient assigned to atom B, for every bond. -/
theorem C9_swap_parity (s g x y z : ℝ) (W nd : ℕ) (scale mu : ℕ → ℝ)
    (dist : ℕ → Fin 3 → ℝ) (w i : ℕ) (hW : 0 < W) (hi : i < nd) :
    rdcVal s g (-x) (-y) (-z) = rdcVal s g x y z ∧
    (calculateDirect W nd scale mu dist w).atomDeriv (2 * i) =
      -(calculateDirect W nd scale mu dist w).atomDeriv (2 * i + 1) := by
  constructor
  · simp only [rdcVal, neg_mul_neg]
    ring_nf
  · rw [calculateDirect_atomDeriv_even W nd scale mu dist w i hW hi,
      calculateDirect_atomDeriv_odd W nd scale mu dist w i hW hi, neg_neg]

/-- Witness for C9 at one bond with unit displacement along z. -/
theorem C9_witness :
    ((0:ℕ) < 1 ∧ (0:ℕ) < 1) ∧
    (rdcVal 1 1 (-0) (-0) (-1) = rdcVal 1 1 0 0 1 ∧
      (calculateDirect 1 1 (fun _ => 1) (fun _ => 1) (fun _ => ![0,0,1]) 0).atomDeriv (2 * 0) =
        -(calculateDirect 1 1 (fun _ => 1) (fun _ => 1) (fun _ => ![0,0,1]) 0).atomDeriv
          (2 * 0 + 1)) :=
  ⟨⟨Nat.one_pos, Nat.one_pos⟩,
    C9_swap_parity 1 1 0 0 1 1 1 (fun _ => 1) (fun _ => 1) (fun _ => ![0,0,1]) 0 0
      Nat.one_pos Nat.one_pos⟩

/-- The per-bond `dmax[index]` computed by the fit branch (lines 329-334):
`id3 * max` with `id3 = 1/d3`, `d3 = d2*d`, `d2 = d*d` and
`max = -Const*mu_s[index]*scale[index]`. -/
noncomputable def fitDmax (s g x y z : ℝ) : ℝ :=
  let d := Real.sqrt (x * x + y * y + z * z)
  let d2 := d * d
  let d3 := d2 * d
  let id3 := 1 / d3
  let mx := -Const * g * s
  id3 * mx

/-- Row `index` of the coefficient matrix assembled by the fit branch
(lines 335-343): `coef_mat` starts zeroed and each entry is set to
`0 + value`, with `mu_x = distance[0]/d` and so on. -/
noncomputable def fitCoefRow (x y z : ℝ) : Fin 5 → ℝ :=
  let d := Real.sqrt (x * x + y * y + z * z)
  let mu_x := x / d
  let mu_y := y / d
  let mu_z := z / d
  ![0 + (mu_x * mu_x - mu_z * mu_z), 0 + (mu_y * mu_y - mu_z * mu_z),
    0 + (2.0 * mu_x * mu_y), 0 + (2.0 * mu_x * mu_z), 0 + (2.0 * mu_y * mu_z)]

/-- Result of the fit branch: the SVD solution vector `S`, the derived
`Szz = -Sxx-Syy` (line 351), and the published component values. -/
structure FitResult where
  S5 : Fin 5 → ℝ
  Szz : ℝ
  val : ℕ → ℝ

/-- Fit-mode `RDC::calculate` (lines 310-370).  The dense SVD least-squares
solve (`gsl_linalg_SV_decomp` / `gsl_linalg_SV_solve`) is performed by the
external GSL backend and enters as the parameter `svdSolve`; the kernel
assembles the `coupl.size() x 5` coefficient matrix (row `i` is meaningful
for `i < nd`) and the target vector `rdc_vec[i] = coupl[i]/dmax[i]`,
obtains the solution `S`, derives `Szz`, back-calculates `bc = coef_mat · S`
(the `gsl_blas_dgemv` call, line 355) and publishes
`rdc[index] = bc[index] * dmax[index]`. -/
noncomputable def calculateFit (nd : ℕ) (scale mu coupl : ℕ → ℝ)
    (dist : ℕ → Fin 3 → ℝ)
    (svdSolve : (ℕ → Fin 5 → ℝ) → (ℕ → ℝ) → Fin 5 → ℝ) : FitResult :=
  let coef : ℕ → Fin 5 → ℝ := fun i => fitCoefRow (dist i 0) (dist i 1) (dist i 2)
  let dmax : ℕ → ℝ := fun i => fitDmax (scale i) (mu i) (dist i 0) (dist i 1) (dist i 2)
  let rdc_vec : ℕ → ℝ := fun i => coupl i / dmax i
  let S := svdSolve coef rdc_vec
  let bc : ℕ → ℝ := fun i => ∑ jj : Fin 5, coef i jj * S jj
  { S5 := S
    Szz := -(S 0) - S 1
    val := fun i => bc i * dmax i }

/-- Modelled from the spec: the design-matrix row
`[μx²-μz², μy²-μz², 2μxμy, 2μxμz, 2μyμz]` for the unit direction
`μ = d/|d|` (section 4.2, step 1). -/
noncomputable def specDesignRow (x y z : ℝ) : Fin 5 → ℝ :=
  let r := Real.sqrt (x ^ 2 + y ^ 2 + z ^ 2)
  let ux := x / r
  let uy := y / r
  let uz := z / r
  ![ux ^ 2 - uz ^ 2, uy ^ 2 - uz ^ 2, 2 * ux * uy, 2 * ux * uz, 2 * uy * uz]

/-- Modelled from the spec: `D_max[i] = -K * scale[i] * gyro[i] / r^3`
(sections 4.1 and 4.2). -/
noncomputable def specDmax (s g x y z : ℝ) : ℝ :=
  -(Const * s * g) / Real.sqrt (x ^ 2 + y ^ 2 + z ^ 2) ^ 3

/-- The assembled coefficient row equals the spec's design-matrix row. -/
theorem fitCoefRow_eq_spec (x y z : ℝ) :
    fitCoefRow x y z = specDesignRow x y z := by
  have hx : (x ^ 2 + y ^ 2 + z ^ 2 : ℝ) = x * x + y * y + z * z := by ring
  simp only [fitCoefRow, specDesignRow, hx, Matrix.vecCons, Fin.cons_eq_cons]
  refine ⟨by ring, by ring, by norm_num, by norm_num, by norm_num, trivial⟩

/-- The fit branch's `dmax` equals the spec's `D_max`. -/
theorem fitDmax_eq_spec (s g x y z : ℝ) :
    fitDmax s g x y z = specDmax s g x y z := by
  have hx : (x ^ 2 + y ^ 2 + z ^ 2 : ℝ) = x * x + y * y + z * z := by ring
  simp only [fitDmax, specDmax, hx]
  ring

/-- C4: in fit mode the kernel assembles exactly the spec's design matrix
and target vector, derives `Szz = -Sxx-Syy` from the solution, and
publishes `rdc[i] = (design_matrix · solution)[i] * D_max[i]`, for
whatever least-squares solution the external SVD backend returns. -/
theorem C4_fit_structure (nd : ℕ) (scale mu coupl : ℕ → ℝ) (dist : ℕ → Fin 3 → ℝ)
    (svdSolve : (ℕ → Fin 5 → ℝ) → (ℕ → ℝ) → Fin 5 → ℝ) (i j : ℕ)
    (hi : i < nd) (hj : j < nd)
    (hq : 0 < dist i 0 * dist i 0 + dist i 1 * dist i 1 + dist i 2 * dist i 2) :
    fitCoefRow (dist j 0) (dist j 1) (dist j 2) =
      specDesignRow (dist j 0) (dist j 1) (dist j 2) ∧
    coupl j / fitDmax (scale j) (mu j) (dist j 0) (dist j 1) (dist j 2) =
      coupl j / specDmax (scale j) (mu j) (dist j 0) (dist j 1) (dist j 2) ∧
    (calculateFit nd scale mu coupl dist svdSolve).Szz =
      -((calculateFit nd scale mu coupl dist svdSolve).S5 0) -
        (calculateFit nd scale mu coupl dist svdSolve).S5 1 ∧
    (calculateFit nd scale mu coupl dist svdSolve).val i =
      (∑ jj : Fin 5, specDesignRow (dist i 0) (dist i 1) (dist i 2) jj *
          svdSolve (fun k => specDesignRow (dist k 0) (dist k 1) (dist k 2))
            (fun k => coupl k /
              specDmax (scale k) (mu k) (dist k 0) (dist k 1) (dist k 2)) jj) *
        specDmax (scale i) (mu i) (dist i 0) (dist i 1) (dist i 2) := by
  have hrow : (fun k => fitCoefRow (dist k 0) (dist k 1) (dist k 2)) =
      fun k => specDesignRow (dist k 0) (dist k 1) (dist k 2) :=
    funext fun k => fitCoefRow_eq_spec _ _ _
  have htgt : (fun k => coupl k /
        fitDmax (scale k) (mu k) (dist k 0) (dist k 1) (dist k 2)) =
      fun k => coupl k / specDmax (scale k) (mu k) (dist k 0) (dist k 1) (dist k 2) :=
    funext fun k => by rw [fitDmax_eq_spec]
  refine ⟨fitCoefRow_eq_spec _ _ _, by rw [fitDmax_eq_spec], rfl, ?_⟩
  simp only [calculateFit]
  rw [hrow, htgt, fitCoefRow_eq_spec, fitDmax_eq_spec]

/-- Witness for C4 with five unit-z bonds and the zero solver. -/
theorem C4_witness :
    ((0:ℕ) < 5 ∧ (0:ℕ) < 5 ∧
      (0:ℝ) < ![0,0,1] 0 * ![0,0,1] 0 + ![0,0,1] 1 * ![0,0,1] 1 + ![0,0,1] 2 * ![0,0,1] 2) ∧
    (fitCoefRow (![0,0,1] 0) (![0,0,1] 1) (![0,0,1] 2) =
      specDesignRow (![0,0,1] 0) (![0,0,1] 1) (![0,0,1] 2) ∧
    (1:ℝ) / fitDmax 1 1 (![0,0,1] 0) (![0,0,1] 1) (![0,0,1] 2) =
      1 / specDmax 1 1 (![0,0,1] 0) (![0,0,1] 1) (![0,0,1] 2) ∧
    (calculateFit 5 (fun _ => 1) (fun _ => 1) (fun _ => 1) (fun _ => ![0,0,1])
        (fun _ _ => fun _ => 0)).Szz =
      -((calculateFit 5 (fun _ => 1) (fun _ => 1) (fun _ => 1) (fun _ => ![0,0,1])
        (fun _ _ => fun _ => 0)).S5 0) -
        (calculateFit 5 (fun _ => 1) (fun _ => 1) (fun _ => 1) (fun _ => ![0,0,1])
        (fun _ _ => fun _ => 0)).S5 1 ∧
    (calculateFit 5 (fun _ => 1) (fun _ => 1) (fun _ => 1) (fun _ => ![0,0,1])
        (fun _ _ => fun _ => 0)).val 0 =
      (∑ jj : Fin 5, specDesignRow (![0,0,1] 0) (![0,0,1] 1) (![0,0,1] 2) jj *
          (fun _ _ => fun _ => (0:ℝ)) (fun k : ℕ => specDesignRow (![0,0,1] 0) (![0,0,1] 1) (![0,0,1] 2))
            (fun k : ℕ => (1:ℝ) / specDmax 1 1 (![0,0,1] 0) (![0,0,1] 1) (![0,0,1] 2)) jj) *
        specDmax 1 1 (![0,0,1] 0) (![0,0,1] 1) (![0,0,1] 2)) :=
  ⟨⟨by norm_num, by norm_num, by norm_num⟩,
    C4_fit_structure 5 (fun _ => 1) (fun _ => 1) (fun _ => 1) (fun _ => ![0,0,1])
      (fun _ _ => fun _ => 0) 0 0 (by norm_num) (by norm_num) (by norm_num)⟩

/-- Errors of the constructor model: `config msg` models a call to
`error(msg)` (a fatal configuration error carrying the message), while
`oobAccess` marks a raw out-of-bounds `std::vector` element access —
undefined behaviour in the source, not a clean error path. -/
inductive CErr where
  | config (msg : String)
  | oobAccess
deriving DecidableEq

/-- The member state built by a successful run of `RDC::RDC`. -/
structure RDCConf where
  ndata : ℕ
  mu_s : List ℝ
  scale : List ℝ
  coupl : List ℝ
  svd : Bool
  serial : Bool

/-- The `ntarget` counter of the numbered-keyword reading loops
(lines 184-188, 197-201, 216-219): `parseNumbered("KEY", i+1, v[i])` is
attempted for `i = 0, 1, ...` and the loop breaks at the first missing
numbered keyword, so `ntarget` is the length of the consecutive block
`KEY1 .. KEYk` present in the configuration. -/
def ntargetOf (nd : ℕ) (numbered : ℕ → Option ℝ) : ℕ :=
  ((List.range nd).takeWhile fun i => (numbered (i + 1)).isSome).length

/-- The per-bond values read when every numbered keyword is present. -/
def readVals (nd : ℕ) (numbered : ℕ → Option ℝ) (dflt : ℝ) : List ℝ :=
  (List.range nd).map fun i => (numbered (i + 1)).getD dflt

/-- The GYROM reading block (lines 183-192): if no `GYROM1` is present the
single `parse("GYROM", mu_s[0])` value is broadcast — for `ndata = 0` that
access indexes element 0 of the empty `mu_s` vector; a consecutive count
different from `ndata` is the fatal error naming GYROM. -/
def readGyrom (nd : ℕ) (gyromN : ℕ → Option ℝ) (gyromSingle : ℝ) :
    Except CErr (List ℝ) :=
  if ntargetOf nd gyromN = 0 then
    if nd = 0 then Except.error CErr.oobAccess
    else Except.ok (List.replicate nd gyromSingle)
  else if ntargetOf nd gyromN = nd then Except.ok (readVals nd gyromN 0)
  else Except.error (CErr.config "found wrong number of GYROM values")

/-- The SCALE reading block (lines 194-205), identical in shape to GYROM;
`scale` is prefilled with 1.0 (line 196). -/
def readScale (nd : ℕ) (scaleN : ℕ → Option ℝ) (scaleSingle : ℝ) :
    Except CErr (List ℝ) :=
  if ntargetOf nd scaleN = 0 then
    if nd = 0 then Except.error CErr.oobAccess
    else Except.ok (List.replicate nd scaleSingle)
  else if ntargetOf nd scaleN = nd then Except.ok (readVals nd scaleN 1)
  else Except.error (CErr.config "found wrong number of SCALE values")

/-- The SVD/COUPLING block (lines 207-221): without the GSL backend the SVD
flag is fatal; in SVD mode the couplings must be numbered and complete —
there is NO unnumbered broadcast fallback for COUPLING (`ntarget != ndata`
is fatal even for `ntarget = 0`). -/
def readCoupl (nd : ℕ) (svdFlag hasGSL : Bool) (couplN : ℕ → Option ℝ) :
    Except CErr (List ℝ) :=
  if svdFlag && !hasGSL then
    Except.error (CErr.config "You CANNOT use SVD without GSL. Recompile PLUMED with GSL!")
  else if svdFlag then
    if ntargetOf nd couplN = nd then Except.ok (readVals nd couplN 0)
    else Except.error (CErr.config "found wrong number of COUPLING values")
  else Except.ok []

/-- Model of the constructor `RDC::RDC` (lines 162-250).  Inputs: the
parsed `ATOMS` pairs; for each numbered group the map giving the value of
`KEYi` when present together with the value the unnumbered `parse` call
leaves in element 0 (the shared value, or the preset default when the
keyword is absent); the `SVD` and `SERIAL` flags; and whether the GSL
backend is compiled in (`__PLUMED_HAS_GSL`).  Keyword bookkeeping
(`checkRead`) and component registration are framework collaborators and
are not modelled.  An `error(...)` call aborts construction; `svd` forces
`serial` (line 234). -/
def constructRDC (atomPairs : List (ℕ × ℕ))
    (gyromN : ℕ → Option ℝ) (gyromSingle : ℝ)
    (scaleN : ℕ → Option ℝ) (scaleSingle : ℝ)
    (svdFlag hasGSL : Bool)
    (couplN : ℕ → Option ℝ) (serialFlag : Bool) : Except CErr RDCConf :=
  let nd := atomPairs.length
  match readGyrom nd gyromN gyromSingle with
  | Except.error e => Except.error e
  | Except.ok mu_s =>
    match readScale nd scaleN scaleSingle with
    | Except.error e => Except.error e
    | Except.ok scale =>
      match readCoupl nd svdFlag hasGSL couplN with
      | Except.error e => Except.error e
      | Except.ok coupl =>
        Except.ok { ndata := nd, mu_s := mu_s, scale := scale, coupl := coupl,
                    svd := svdFlag, serial := serialFlag || svdFlag }

theorem readGyrom_broadcast (nd : ℕ) (f : ℕ → Option ℝ) (s : ℝ)
    (h0 : ntargetOf nd f = 0) (hnd : nd ≠ 0) :
    readGyrom nd f s = Except.ok (List.replicate nd s) := by
  simp [readGyrom, h0, hnd]

theorem readGyrom_full (nd : ℕ) (f : ℕ → Option ℝ) (s : ℝ)
    (hfull : ntargetOf nd f = nd) (hnd : nd ≠ 0) :
    readGyrom nd f s = Except.ok (readVals nd f 0) := by
  have h0 : ntargetOf nd f ≠ 0 := by omega
  simp [readGyrom, h0, hfull, hnd]

theorem readGyrom_wrongCount (nd : ℕ) (f : ℕ → Option ℝ) (s : ℝ)
    (h1 : 0 < ntargetOf nd f) (h2 : ntargetOf nd f < nd) :
    readGyrom nd f s = Except.error (CErr.config "found wrong number of GYROM values") := by
  have h0 : ntargetOf nd f ≠ 0 := by omega
  have hne : ntargetOf nd f ≠ nd := by omega
  simp [readGyrom, h0, hne]

theorem readGyrom_ne_oob (nd : ℕ) (f : ℕ → Option ℝ) (s : ℝ) (hnd : nd ≠ 0) :
    readGyrom nd f s ≠ Except.error CErr.oobAccess := by
  unfold readGyrom
  split_ifs <;> simp_all

theorem readScale_broadcast (nd : ℕ) (f : ℕ → Option ℝ) (s : ℝ)
    (h0 : ntargetOf nd f = 0) (hnd : nd ≠ 0) :
    readScale nd f s = Except.ok (List.replicate nd s) := by
  simp [readScale, h0, hnd]

theorem readScale_full (nd : ℕ) (f : ℕ → Option ℝ) (s : ℝ)
    (hfull : ntargetOf nd f = nd) (hnd : nd ≠ 0) :
    readScale nd f s = Except.ok (readVals nd f 1) := by
  have h0 : ntargetOf nd f ≠ 0 := by omega
  simp [readScale, h0, hfull, hnd]

theorem readScale_wrongCount (nd : ℕ) (f : ℕ → Option ℝ) (s : ℝ)
    (h1 : 0 < ntargetOf nd f) (h2 : ntargetOf nd f < nd) :
    readScale nd f s = Except.error (CErr.config "found wrong number of SCALE values") := by
  have h0 : ntargetOf nd f ≠ 0 := by omega
  have hne : ntargetOf nd f ≠ nd := by omega
  simp [readScale, h0, hne]

theorem readScale_ne_oob (nd : ℕ) (f : ℕ → Option ℝ) (s : ℝ) (hnd : nd ≠ 0) :
    readScale nd f s ≠ Except.error CErr.oobAccess := by
  unfold readScale
  split_ifs <;> simp_all

theorem readCoupl_full (nd : ℕ) (hasGSL : Bool) (f : ℕ → Option ℝ)
    (hgsl : hasGSL = true) (hc : ntargetOf nd f = nd) :
    readCoupl nd true hasGSL f = Except.ok (readVals nd f 0) := by
  simp [readCoupl, hgsl, hc]

theorem readCoupl_bad (nd : ℕ) (hasGSL : Bool) (f : ℕ → Option ℝ)
    (hgsl : hasGSL = true) (hc : ntargetOf nd f ≠ nd) :
    readCoupl nd true hasGSL f =
      Except.error (CErr.config "found wrong number of COUPLING values") := by
  simp [readCoupl, hgsl, hc]

theorem readCoupl_off (nd : ℕ) (hasGSL : Bool) (f : ℕ → Option ℝ) :
    readCoupl nd false hasGSL f = Except.ok [] := by
  simp [readCoupl]

theorem readCoupl_ne_oob (nd : ℕ) (svdFlag hasGSL : Bool) (f : ℕ → Option ℝ) :
    readCoupl nd svdFlag hasGSL f ≠ Except.error CErr.oobAccess := by
  unfold readCoupl
  split_ifs <;> simp_all

/-- Acceptance of the constructor: with at least one bond, GYROM and SCALE
each either absent-numbered (broadcast) or fully numbered, and in SVD mode
GSL available and couplings fully numbered, construction succeeds. -/
theorem constructRDC_ok (atomPairs : List (ℕ × ℕ))
    (gyromN : ℕ → Option ℝ) (gyromSingle : ℝ)
    (scaleN : ℕ → Option ℝ) (scaleSingle : ℝ)
    (svdFlag hasGSL : Bool) (couplN : ℕ → Option ℝ) (serialFlag : Bool)
    (hnd : atomPairs.length ≠ 0)
    (hG : ntargetOf atomPairs.length gyromN = 0 ∨
      ntargetOf atomPairs.length gyromN = atomPairs.length)
    (hS : ntargetOf atomPairs.length scaleN = 0 ∨
      ntargetOf atomPairs.length scaleN = atomPairs.length)
    (hC : svdFlag = true → hasGSL = true ∧
      ntargetOf atomPairs.length couplN = atomPairs.length) :
    ∃ c, constructRDC atomPairs gyromN gyromSingle scaleN scaleSingle svdFlag hasGSL
      couplN serialFlag = Except.ok c := by
  have hGy : ∃ lg, readGyrom atomPairs.length gyromN gyromSingle = Except.ok lg := by
    rcases hG with h0 | hfull
    · exact ⟨_, readGyrom_broadcast _ _ _ h0 hnd⟩
    · exact ⟨_, readGyrom_full _ _ _ hfull hnd⟩
  have hSc : ∃ ls, readScale atomPairs.length scaleN scaleSingle = Except.ok ls := by
    rcases hS with h0 | hfull
    · exact ⟨_, readScale_broadcast _ _ _ h0 hnd⟩
    · exact ⟨_, readScale_full _ _ _ hfull hnd⟩
  have hCp : ∃ lc, readCoupl atomPairs.length svdFlag hasGSL couplN = Except.ok lc := by
    cases svdFlag with
    | false => exact ⟨_, readCoupl_off _ _ _⟩
    | true =>
      obtain ⟨hgsl, hc⟩ := hC rfl
      exact ⟨_, readCoupl_full _ _ _ hgsl hc⟩
  obtain ⟨lg, hlg⟩ := hGy
  obtain ⟨ls, hls⟩ := hSc
  obtain ⟨lc, hlc⟩ := hCp
  refine ⟨⟨atomPairs.length, lg, ls, lc, svdFlag, serialFlag || svdFlag⟩, ?_⟩
  simp [constructRDC, hlg, hls, hlc]

/-- Any error of the constructor propagates from the stage that raised it. -/
theorem constructRDC_error_gyrom (atomPairs : List (ℕ × ℕ))
    (gyromN : ℕ → Option ℝ) (gyromSingle : ℝ)
    (scaleN : ℕ → Option ℝ) (scaleSingle : ℝ)
    (svdFlag hasGSL : Bool) (couplN : ℕ → Option ℝ) (serialFlag : Bool) (e : CErr)
    (h : readGyrom atomPairs.length gyromN gyromSingle = Except.error e) :
    constructRDC atomPairs gyromN gyromSingle scaleN scaleSingle svdFlag hasGSL
      couplN serialFlag = Except.error e := by
  simp [constructRDC, h]

theorem constructRDC_error_scale (atomPairs : List (ℕ × ℕ))
    (gyromN : ℕ → Option ℝ) (gyromSingle : ℝ)
    (scaleN : ℕ → Option ℝ) (scaleSingle : ℝ)
    (svdFlag hasGSL : Bool) (couplN : ℕ → Option ℝ) (serialFlag : Bool)
    (lg : List ℝ) (e : CErr)
    (hg : readGyrom atomPairs.length gyromN gyromSingle = Except.ok lg)
    (h : readScale atomPairs.length scaleN scaleSingle = Except.error e) :
    constructRDC atomPairs gyromN gyromSingle scaleN scaleSingle svdFlag hasGSL
      couplN serialFlag = Except.error e := by
  simp [constructRDC, hg, h]

theorem constructRDC_error_coupl (atomPairs : List (ℕ × ℕ))
    (gyromN : ℕ → Option ℝ) (gyromSingle : ℝ)
    (scaleN : ℕ → Option ℝ) (scaleSingle : ℝ)
    (svdFlag hasGSL : Bool) (couplN : ℕ → Option ℝ) (serialFlag : Bool)
    (lg ls : List ℝ) (e : CErr)
    (hg : readGyrom atomPairs.length gyromN gyromSingle = Except.ok lg)
    (hs : readScale atomPairs.length scaleN scaleSingle = Except.ok ls)
    (h : readCoupl atomPairs.length svdFlag hasGSL couplN = Except.error e) :
    constructRDC atomPairs gyromN gyromSingle scaleN scaleSingle svdFlag hasGSL
      couplN serialFlag = Except.error e := by
  simp [constructRDC, hg, hs, h]

/-- C5 (amended): construction performs NO minimum-bond-count validation
for fit mode: an otherwise well-formed SVD configuration with fewer than 5
bonds (GSL available, couplings fully numbered) completes setup
successfully; nothing rejects `N_bonds < 5` before evaluation. -/
theorem C5_no_min_bond_check (atomPairs : List (ℕ × ℕ))
    (gyromN : ℕ → Option ℝ) (gyromSingle : ℝ)
    (scaleN : ℕ → Option ℝ) (scaleSingle : ℝ)
    (couplN : ℕ → Option ℝ) (serialFlag : Bool)
    (hnd : 1 ≤ atomPairs.length) (hlt : atomPairs.length < 5)
    (hG : ntargetOf atomPairs.length gyromN = 0 ∨
      ntargetOf atomPairs.length gyromN = atomPairs.length)
    (hS : ntargetOf atomPairs.length scaleN = 0 ∨
      ntargetOf atomPairs.length scaleN = atomPairs.length)
    (hC : ntargetOf atomPairs.length couplN = atomPairs.length) :
    ∃ c, constructRDC atomPairs gyromN gyromSingle scaleN scaleSingle true true couplN
      serialFlag = Except.ok c :=
  constructRDC_ok atomPairs gyromN gyromSingle scaleN scaleSingle true true couplN
    serialFlag (by omega) hG hS (fun _ => ⟨rfl, hC⟩)

/-- C5 counterexample: a fit-mode configuration with ONE bond (coupling
supplied, GSL available) constructs successfully — no fatal configuration
error is raised during setup, contrary to the claim. -/
theorem C5_counterexample :
    constructRDC [(1, 2)] (fun _ => none) (-72.5388) (fun _ => none) 1 true true
      (fun i => if i = 1 then some 8.17 else none) false =
      Except.ok { ndata := 1, mu_s := [-72.5388], scale := [1], coupl := [8.17],
                  svd := true, serial := true } := rfl

/-- Witness for C5 with a single-bond SVD configuration. -/
theorem C5_witness :
    (1 ≤ [((1:ℕ), (2:ℕ))].length ∧ [((1:ℕ), (2:ℕ))].length < 5 ∧
      (ntargetOf [((1:ℕ), (2:ℕ))].length (fun _ => none) = 0 ∨
        ntargetOf [((1:ℕ), (2:ℕ))].length (fun _ => none) = [((1:ℕ), (2:ℕ))].length) ∧
      ntargetOf [((1:ℕ), (2:ℕ))].length (fun i => if i = 1 then some 8.17 else none) =
        [((1:ℕ), (2:ℕ))].length) ∧
    ∃ c, constructRDC [((1:ℕ), (2:ℕ))] (fun _ => none) (-72.5388) (fun _ => none) 1 true
      true (fun i => if i = 1 then some 8.17 else none) false = Except.ok c :=
  ⟨⟨by norm_num, by norm_num, Or.inl rfl, rfl⟩,
    C5_no_min_bond_check [((1:ℕ), (2:ℕ))] (fun _ => none) (-72.5388) (fun _ => none) 1
      (fun i => if i = 1 then some 8.17 else none) false (by norm_num) (by norm_num)
      (Or.inl rfl) (Or.inl rfl) rfl⟩

/-- C7 (amended): with at least one bond, GYROM and SCALE accept exactly
two shapes — no numbered values (single shared value broadcast) or a
numbered value for every bond — and a consecutive numbered count strictly
between 0 and N is a fatal error whose message names the group.  COUPLING
in fit mode accepts ONLY the fully numbered shape: any other count,
including the single-shared broadcast shape, is a fatal error naming
COUPLING. -/
theorem C7_param_shapes (atomPairs : List (ℕ × ℕ))
    (gyromN : ℕ → Option ℝ) (gyromSingle : ℝ)
    (scaleN : ℕ → Option ℝ) (scaleSingle : ℝ)
    (svdFlag hasGSL : Bool) (couplN : ℕ → Option ℝ) (serialFlag : Bool)
    (hnd : 1 ≤ atomPairs.length) :
    (0 < ntargetOf atomPairs.length gyromN →
      ntargetOf atomPairs.length gyromN < atomPairs.length →
      constructRDC atomPairs gyromN gyromSingle scaleN scaleSingle svdFlag hasGSL couplN
        serialFlag = Except.error (CErr.config "found wrong number of GYROM values")) ∧
    ((ntargetOf atomPairs.length gyromN = 0 ∨
        ntargetOf atomPairs.length gyromN = atomPairs.length) →
      0 < ntargetOf atomPairs.length scaleN →
      ntargetOf atomPairs.length scaleN < atomPairs.length →
      constructRDC atomPairs gyromN gyromSingle scaleN scaleSingle svdFlag hasGSL couplN
        serialFlag = Except.error (CErr.config "found wrong number of SCALE values")) ∧
    ((ntargetOf atomPairs.length gyromN = 0 ∨
        ntargetOf atomPairs.length gyromN = atomPairs.length) →
      (ntargetOf atomPairs.length scaleN = 0 ∨
        ntargetOf atomPairs.length scaleN = atomPairs.length) →
      svdFlag = true → hasGSL = true →
      ntargetOf atomPairs.length couplN ≠ atomPairs.length →
      constructRDC atomPairs gyromN gyromSingle scaleN scaleSingle svdFlag hasGSL couplN
        serialFlag = Except.error (CErr.config "found wrong number of COUPLING values")) ∧
    ((ntargetOf atomPairs.length gyromN = 0 ∨
        ntargetOf atomPairs.length gyromN = atomPairs.length) →
      (ntargetOf atomPairs.length scaleN = 0 ∨
        ntargetOf atomPairs.length scaleN = atomPairs.length) →
      (svdFlag = true → hasGSL = true ∧
        ntargetOf atomPairs.length couplN = atomPairs.length) →
      ∃ c, constructRDC atomPairs gyromN gyromSingle scaleN scaleSingle svdFlag hasGSL
        couplN serialFlag = Except.ok c) := by
  have hnd0 : atomPairs.length ≠ 0 := by omega
  refine ⟨?_, ?_, ?_, ?_⟩
  · intro h1 h2
    exact constructRDC_error_gyrom _ _ _ _ _ _ _ _ _ _
      (readGyrom_wrongCount _ _ _ h1 h2)
  · intro hG h1 h2
    have hGy : ∃ lg, readGyrom atomPairs.length gyromN gyromSingle = Except.ok lg := by
      rcases hG with h0 | hfull
      · exact ⟨_, readGyrom_broadcast _ _ _ h0 hnd0⟩
      · exact ⟨_, readGyrom_full _ _ _ hfull hnd0⟩
    obtain ⟨lg, hlg⟩ := hGy
    exact constructRDC_error_scale _ _ _ _ _ _ _ _ _ lg _ hlg
      (readScale_wrongCount _ _ _ h1 h2)
  · intro hG hS hsvd hgsl hc
    subst hsvd
    have hGy : ∃ lg, readGyrom atomPairs.length gyromN gyromSingle = Except.ok lg := by
      rcases hG with h0 | hfull
      · exact ⟨_, readGyrom_broadcast _ _ _ h0 hnd0⟩
      · exact ⟨_, readGyrom_full _ _ _ hfull hnd0⟩
    have hSc : ∃ ls, readScale atomPairs.length scaleN scaleSingle = Except.ok ls := by
      rcases hS with h0 | hfull
      · exact ⟨_, readScale_broadcast _ _ _ h0 hnd0⟩
      · exact ⟨_, readScale_full _ _ _ hfull hnd0⟩
    obtain ⟨lg, hlg⟩ := hGy
    obtain ⟨ls, hls⟩ := hSc
    exact constructRDC_error_coupl _ _ _ _ _ _ _ _ _ lg ls _ hlg hls
      (readCoupl_bad _ _ _ hgsl hc)
  · intro hG hS hC
    exact constructRDC_ok _ _ _ _ _ _ _ _ _ hnd0 hG hS hC

/-- C7 counterexample: a fit-mode configuration supplying COUPLING as a
single shared (unnumbered) value — no numbered COUPLINGs present — is
rejected with the COUPLING count error, although the claim says every
group accepts the single-shared broadcast shape. -/
theorem C7_counterexample :
    constructRDC [(1, 2), (3, 4), (5, 6), (7, 8), (9, 10)] (fun _ => none) 1
      (fun _ => none) 1 true true (fun _ => none) false =
      Except.error (CErr.config "found wrong number of COUPLING values") := rfl

/-- Witness for C7 with five bonds, broadcast GYROM and SCALE, direct mode. -/
theorem C7_witness :
    (1 ≤ [((1:ℕ), (2:ℕ)), (3, 4), (5, 6), (7, 8), (9, 10)].length) ∧
    ((0 < ntargetOf [((1:ℕ), (2:ℕ)), (3, 4), (5, 6), (7, 8), (9, 10)].length (fun _ => none) →
      ntargetOf [((1:ℕ), (2:ℕ)), (3, 4), (5, 6), (7, 8), (9, 10)].length (fun _ => none) <
        [((1:ℕ), (2:ℕ)), (3, 4), (5, 6), (7, 8), (9, 10)].length →
      constructRDC [((1:ℕ), (2:ℕ)), (3, 4), (5, 6), (7, 8), (9, 10)] (fun _ => none) 1
        (fun _ => none) 1 false true (fun _ => none) false =
        Except.error (CErr.config "found wrong number of GYROM values")) ∧
    ((ntargetOf [((1:ℕ), (2:ℕ)), (3, 4), (5, 6), (7, 8), (9, 10)].length (fun _ => none) = 0 ∨
        ntargetOf [((1:ℕ), (2:ℕ)), (3, 4), (5, 6), (7, 8), (9, 10)].length (fun _ => none) =
          [((1:ℕ), (2:ℕ)), (3, 4), (5, 6), (7, 8), (9, 10)].length) →
      0 < ntargetOf [((1:ℕ), (2:ℕ)), (3, 4), (5, 6), (7, 8), (9, 10)].length (fun _ => none) →
      ntargetOf [((1:ℕ), (2:ℕ)), (3, 4), (5, 6), (7, 8), (9, 10)].length (fun _ => none) <
        [((1:ℕ), (2:ℕ)), (3, 4), (5, 6), (7, 8), (9, 10)].length →
      constructRDC [((1:ℕ), (2:ℕ)), (3, 4), (5, 6), (7, 8), (9, 10)] (fun _ => none) 1
        (fun _ => none) 1 false true (fun _ => none) false =
        Except.error (CErr.config "found wrong number of SCALE values")) ∧
    ((ntargetOf [((1:ℕ), (2:ℕ)), (3, 4), (5, 6), (7, 8), (9, 10)].length (fun _ => none) = 0 ∨
        ntargetOf [((1:ℕ), (2:ℕ)), (3, 4), (5, 6), (7, 8), (9, 10)].length (fun _ => none) =
          [((1:ℕ), (2:ℕ)), (3, 4), (5, 6), (7, 8), (9, 10)].length) →
      (ntargetOf [((1:ℕ), (2:ℕ)), (3, 4), (5, 6), (7, 8), (9, 10)].length (fun _ => none) = 0 ∨
        ntargetOf [((1:ℕ), (2:ℕ)), (3, 4), (5, 6), (7, 8), (9, 10)].length (fun _ => none) =
          [((1:ℕ), (2:ℕ)), (3, 4), (5, 6), (7, 8), (9, 10)].length) →
      false = true → true = true →
      ntargetOf [((1:ℕ), (2:ℕ)), (3, 4), (5, 6), (7, 8), (9, 10)].length (fun _ => none) ≠
        [((1:ℕ), (2:ℕ)), (3, 4), (5, 6), (7, 8), (9, 10)].length →
      constructRDC [((1:ℕ), (2:ℕ)), (3, 4), (5, 6), (7, 8), (9, 10)] (fun _ => none) 1
        (fun _ => none) 1 false true (fun _ => none) false =
        Except.error (CErr.config "found wrong number of COUPLING values")) ∧
    ((ntargetOf [((1:ℕ), (2:ℕ)), (3, 4), (5, 6), (7, 8), (9, 10)].length (fun _ => none) = 0 ∨
        ntargetOf [((1:ℕ), (2:ℕ)), (3, 4), (5, 6), (7, 8), (9, 10)].length (fun _ => none) =
          [((1:ℕ), (2:ℕ)), (3, 4), (5, 6), (7, 8), (9, 10)].length) →
      (ntargetOf [((1:ℕ), (2:ℕ)), (3, 4), (5, 6), (7, 8), (9, 10)].length (fun _ => none) = 0 ∨
        ntargetOf [((1:ℕ), (2:ℕ)), (3, 4), (5, 6), (7, 8), (9, 10)].length (fun _ => none) =
          [((1:ℕ), (2:ℕ)), (3, 4), (5, 6), (7, 8), (9, 10)].length) →
      (false = true → true = true ∧
        ntargetOf [((1:ℕ), (2:ℕ)), (3, 4), (5, 6), (7, 8), (9, 10)].length (fun _ => none) =
          [((1:ℕ), (2:ℕ)), (3, 4), (5, 6), (7, 8), (9, 10)].length) →
      ∃ c, constructRDC [((1:ℕ), (2:ℕ)), (3, 4), (5, 6), (7, 8), (9, 10)] (fun _ => none) 1
        (fun _ => none) 1 false true (fun _ => none) false = Except.ok c)) :=
  ⟨by norm_num,
    C7_param_shapes [((1:ℕ), (2:ℕ)), (3, 4), (5, 6), (7, 8), (9, 10)] (fun _ => none) 1
      (fun _ => none) 1 false true (fun _ => none) false (by norm_num)⟩

/-- C10: with zero ATOMS keywords the constructor does not raise a clean
configuration error: the GYROM broadcast path dereferences element 0 of
the empty `mu_s` vector (an out-of-bounds access); and with at least one
bond, no parameter-vector access performed during construction is out of
bounds. -/
theorem C10_oob_ndata_zero (atomPairs : List (ℕ × ℕ))
    (gyromN : ℕ → Option ℝ) (gyromSingle : ℝ)
    (scaleN : ℕ → Option ℝ) (scaleSingle : ℝ)
    (svdFlag hasGSL : Bool) (couplN : ℕ → Option ℝ) (serialFlag : Bool) :
    constructRDC [] gyromN gyromSingle scaleN scaleSingle svdFlag hasGSL couplN
      serialFlag = Except.error CErr.oobAccess ∧
    (1 ≤ atomPairs.length →
      constructRDC atomPairs gyromN gyromSingle scaleN scaleSingle svdFlag hasGSL couplN
        serialFlag ≠ Except.error CErr.oobAccess) := by
  constructor
  · rfl
  · intro hlen hcontra
    have hnd : atomPairs.length ≠ 0 := by omega
    cases hg : readGyrom atomPairs.length gyromN gyromSingle with
    | error e =>
      rw [constructRDC_error_gyrom _ _ _ _ _ _ _ _ _ e hg] at hcontra
      have he : e = CErr.oobAccess := by injection hcontra
      exact readGyrom_ne_oob _ _ _ hnd (he ▸ hg)
    | ok lg =>
      cases hs : readScale atomPairs.length scaleN scaleSingle with
      | error e =>
        rw [constructRDC_error_scale _ _ _ _ _ _ _ _ _ lg e hg hs] at hcontra
        have he : e = CErr.oobAccess := by injection hcontra
        exact readScale_ne_oob _ _ _ hnd (he ▸ hs)
      | ok ls =>
        cases hc : readCoupl atomPairs.length svdFlag hasGSL couplN with
        | error e =>
          rw [constructRDC_error_coupl _ _ _ _ _ _ _ _ _ lg ls e hg hs hc] at hcontra
          have he : e = CErr.oobAccess := by injection hcontra
          exact readCoupl_ne_oob _ _ _ _ (he ▸ hc)
        | ok lc =>
          have hok : constructRDC atomPairs gyromN gyromSingle scaleN scaleSingle svdFlag
              hasGSL couplN serialFlag = Except.ok
                { ndata := atomPairs.length, mu_s := lg, scale := ls, coupl := lc,
                  svd := svdFlag, serial := serialFlag || svdFlag } := by
            simp [constructRDC, hg, hs, hc]
          rw [hok] at hcontra
          exact Except.noConfusion hcontra

/-- Witness for C10: one bond, broadcast parameters, direct mode. -/
theorem C10_witness :
    constructRDC [] (fun _ => none) 1 (fun _ => none) 1 false true (fun _ => none) false =
      Except.error CErr.oobAccess ∧
    (1 ≤ [((1:ℕ), (2:ℕ))].length ∧
      constructRDC [((1:ℕ), (2:ℕ))] (fun _ => none) 1 (fun _ => none) 1 false true
        (fun _ => none) false ≠ Except.error CErr.oobAccess) :=
  ⟨(C10_oob_ndata_zero [((1:ℕ), (2:ℕ))] (fun _ => none) 1 (fun _ => none) 1 false true
      (fun _ => none) false).1,
    by norm_num,
    (C10_oob_ndata_zero [((1:ℕ), (2:ℕ))] (fun _ => none) 1 (fun _ => none) 1 false true
      (fun _ => none) false).2 (by norm_num)⟩

end RDC
